import Mathlib

/-!
Verification of the cna2gex data pipeline: dataset assembly, split
partitioning, train-only normalization statistics, the early-stopping
training loop, and the evaluation reporter.  Numeric values are modelled
over the rationals (reals only where a square root appears); tables are
association lists keyed by sample id.
-/

/-- Elementwise normalization, dataset.py line 23 of validate.py:
X = (X - mean) / std. -/
def applyNorm (x m s : ℚ) : ℚ := (x - m) / s

/-- Elementwise denormalization, validate.py line 30:
yhat = yhat * std + mean. -/
def invertNorm (x m s : ℚ) : ℚ := x * s + m

/-- Ternary zip used to apply per-column statistics to a row vector. -/
def zip3With (f : ℚ → ℚ → ℚ → ℚ) : List ℚ → List ℚ → List ℚ → List ℚ
  | x :: xs, m :: ms, s :: ss => f x m s :: zip3With f xs ms ss
  | _, _, _ => []

/-- Row-level apply: (x - mean) / std on each coordinate. -/
def applyRow (x mean std : List ℚ) : List ℚ := zip3With applyNorm x mean std

/-- Row-level invert: x * std + mean on each coordinate. -/
def invertRow (x mean std : List ℚ) : List ℚ := zip3With invertNorm x mean std

/-- C6: for every vector x and statistics (mean, std) of matching length with
std nonzero in every coordinate, invert (apply x mean std) mean std = x,
exactly over the rationals. -/
theorem invert_apply_roundtrip (x mean std : List ℚ)
    (hxm : x.length = mean.length) (hms : mean.length = std.length)
    (hstd : ∀ s ∈ std, s ≠ 0) :
    invertRow (applyRow x mean std) mean std = x := by
  induction x generalizing mean std with
  | nil =>
    cases mean with
    | nil => rfl
    | cons m ms => simp at hxm
  | cons a xs ih =>
    cases mean with
    | nil => simp at hxm
    | cons m ms =>
      cases std with
      | nil => simp at hms
      | cons s ss =>
        have hs : s ≠ 0 := hstd s (by simp)
        have hrest : ∀ t ∈ ss, t ≠ 0 := fun t ht => hstd t (by simp [ht])
        have hxm' : xs.length = ms.length := by simpa using hxm
        have hms' : ms.length = ss.length := by simpa using hms
        simp only [applyRow, invertRow, zip3With]
        rw [List.cons.injEq]
        constructor
        · show applyNorm a m s * s + m = a
          unfold applyNorm
          field_simp
        · exact ih ms ss hxm' hms' hrest

/-- Witness for the round-trip theorem at a concrete input. -/
theorem invert_apply_roundtrip_witness :
    invertRow (applyRow [1, 2] [3, 4] [2, 5]) [3, 4] [2, 5] = [1, 2] :=
  invert_apply_roundtrip [1, 2] [3, 4] [2, 5] (by decide) (by decide)
    (by decide)

/-- Training-loop state of main.py lines 31-50: best validation loss seen so
far (none encodes +infinity), the consecutive non-improvement counter, the
epoch of the persisted best checkpoint (the model saved by save_model), the
epoch recorded by set_early_stopping_epoch, and whether the loop has broken
out. -/
structure TrainLoopState where
  best : Option ℚ
  notDec : ℕ
  saved : Option ℕ
  earlyStopEpoch : Option ℕ
  stopped : Bool
deriving DecidableEq

/-- Initial state: best_val_loss = inf, num_epochs_val_loss_not_decreased = 0,
no checkpoint, still running. -/
def initLoopState : TrainLoopState :=
  { best := none, notDec := 0, saved := none, earlyStopEpoch := none,
    stopped := false }

/-- current_val_loss < best_val_loss, where best starts at +infinity. -/
def ltBest (l : ℚ) : Option ℚ → Bool
  | none => true
  | some b => decide (l < b)

/-- One iteration of the epoch loop, main.py lines 39-50.  The model after
training in epoch e is identified with e, so save_model persists the epoch
number.  A stopped state is left unchanged, mirroring the break. -/
def epochStep (patience : ℕ) (epoch : ℕ) (l : ℚ) (s : TrainLoopState) :
    TrainLoopState :=
  if s.stopped then s
  else
    let s' :=
      if ltBest l s.best then
        { s with best := some l, notDec := 0, saved := some epoch }
      else
        { s with notDec := s.notDec + 1 }
    if s'.notDec = patience then
      { s' with earlyStopEpoch := some epoch, stopped := true }
    else s'

/-- Fold the per-epoch validation losses through the loop, numbering epochs
from 1 as in main.py line 34. -/
def runLoopAux (patience : ℕ) : ℕ → List ℚ → TrainLoopState → TrainLoopState
  | _, [], s => s
  | e, l :: ls, s => runLoopAux patience (e + 1) ls (epochStep patience e l s)

/-- Run the training loop on a given sequence of validation losses. -/
def runLoop (patience : ℕ) (losses : List ℚ) : TrainLoopState :=
  runLoopAux patience 1 losses initLoopState

/-- After the loop, main.py line 57 reloads the persisted checkpoint; the
model handed to the evaluation phase is the saved epoch. -/
def loadedModel (s : TrainLoopState) : Option ℕ := s.saved

/-- C3: with patience 2 and validation losses 5,5,6,7 on epochs 1-4, the loop
early-stops exactly at epoch 3 (the moment the consecutive non-improvement
counter reaches the patience), and the model handed to evaluation is the
checkpoint persisted at epoch 1, reloaded from persisted state. -/
theorem early_stopping_trace :
    (runLoop 2 [5, 5, 6, 7]).earlyStopEpoch = some 3 ∧
      (runLoop 2 [5, 5, 6, 7]).stopped = true ∧
      loadedModel (runLoop 2 [5, 5, 6, 7]) = some 1 := by
  decide

/-- Parameters of validate (validate.py line 11), all without defaults. -/
def validateParams : List String :=
  ["cfg", "data_loaders", "model", "loss_function", "dataset", "epoch",
   "logger", "summary_writer"]

/-- Keyword arguments main.py line 36 passes to validate. -/
def mainValidateArgs : List String :=
  ["cfg", "data_loaders", "model", "loss_function", "dataset", "epoch",
   "logger"]

/-- Keys of the dictionary validate returns (validate.py lines 37-39): the
single configured loss-function name. -/
def validateDictKeys (lossName : String) : List String := [lossName]

/-- Key main.py line 37 reads from the returned dictionary. -/
def mainLookupKey : String := "val"

/-- A Python call binds successfully exactly when every parameter without a
default receives an argument. -/
def callBindsOk (params provided : List String) : Bool :=
  params.all (fun p => provided.contains p)

/-- First epoch of the composed loop in main.py lines 34-37: the validate
call must bind, then the returned dictionary is indexed at "val". -/
def mainFirstEpochValLoss (lossName : String) (lossVal : ℚ) :
    Except String ℚ :=
  if callBindsOk validateParams mainValidateArgs then
    if (validateDictKeys lossName).contains mainLookupKey then
      Except.ok lossVal
    else Except.error "KeyError"
  else Except.error "TypeError"

/-- C5: for every configuration, the first epoch of the composed loop fails:
main omits the required summary_writer parameter of validate, and even with
that repaired the dictionary returned by validate is keyed by the configured
loss-function name, so the lookup of "val" succeeds only when the loss
function is literally named "val". -/
theorem main_first_epoch_fails (lossName : String) (lossVal : ℚ) :
    mainFirstEpochValLoss lossName lossVal = Except.error "TypeError" ∧
      callBindsOk validateParams mainValidateArgs = false ∧
      ((validateDictKeys lossName).contains mainLookupKey = true ↔
        lossName = "val") := by
  refine ⟨?_, ?_, ?_⟩
  · simp [mainFirstEpochValLoss, callBindsOk, validateParams,
      mainValidateArgs]
  · decide
  · simp [validateDictKeys, mainLookupKey, List.contains_cons, eq_comm]

/-- Key-presence test on the configuration mapping, dataset.py line 27. -/
def hasKey (r : List (String × ℚ)) (k : String) : Bool :=
  (r.map Prod.fst).contains k

/-- Value lookup in the configuration mapping (keys are unique in a Python
dict; the default is never reached once presence is checked). -/
def getVal (r : List (String × ℚ)) (k : String) : ℚ :=
  (r.lookup k).getD 0

/-- The split-ratio validation of dataset.py lines 25-31: first the three
keys must be present, then the three values must sum to exactly 1. -/
def splitMapCheck (r : List (String × ℚ)) : Except String Unit :=
  if !hasKey r "train" || !hasKey r "val" || !hasKey r "test" then
    Except.error "missing split key"
  else if getVal r "train" + getVal r "val" + getVal r "test" ≠ 1 then
    Except.error "split values must sum to one"
  else Except.ok ()

/-- Dataset initialisation stage: the split-ratio checks of lines 25-31 run
before _process_dataset (line 37) loads any data file; the marker value is
only produced when the checks pass. -/
def datasetInitStage (r : List (String × ℚ)) : Except String String :=
  match splitMapCheck r with
  | Except.error e => Except.error e
  | Except.ok _ => Except.ok "data loaded"

/-- C7: dataset construction reaches the data-loading stage exactly when the
split-ratio mapping has all three keys train, val, test and their values sum
to exactly 1; otherwise a configuration error is raised before any data file
is loaded. -/
theorem split_map_check_iff (r : List (String × ℚ)) :
    datasetInitStage r = Except.ok "data loaded" ↔
      (hasKey r "train" = true ∧ hasKey r "val" = true ∧
        hasKey r "test" = true ∧
        getVal r "train" + getVal r "val" + getVal r "test" = 1) := by
  unfold datasetInitStage splitMapCheck
  by_cases h1 : hasKey r "train" = true <;>
    by_cases h2 : hasKey r "val" = true <;>
      by_cases h3 : hasKey r "test" = true <;>
        by_cases h4 : getVal r "train" + getVal r "val" + getVal r "test" = 1 <;>
          simp_all

/-- Row access X[i], dataset.py line 52. -/
def rowAt (X : List (List ℚ)) (i : ℕ) : List ℚ := X.getD i []

/-- Entry access within a row. -/
def entryAt (r : List ℚ) (j : ℕ) : ℚ := r.getD j 0

/-- X[train_idx, :], dataset.py line 52. -/
def selectRows (X : List (List ℚ)) (idx : List ℕ) : List (List ℚ) :=
  idx.map (rowAt X)

/-- np.mean(rows, axis=0) at column j. -/
def colMean (rows : List (List ℚ)) (j : ℕ) : ℚ :=
  (rows.map (fun r => entryAt r j)).sum / rows.length

/-- Population variance (np.std has ddof 0) at column j. -/
def colVar (rows : List (List ℚ)) (j : ℕ) : ℚ :=
  (rows.map (fun r => (entryAt r j - colMean rows j) ^ 2)).sum / rows.length

/-- X_train_mean, dataset.py lines 55 and 57: the column mean over the train
rows, overwritten to 0 on one-hot cancer-type columns. -/
def trainMean (X : List (List ℚ)) (idx : List ℕ) (oneHot : List ℕ)
    (j : ℕ) : ℚ :=
  if j ∈ oneHot then 0 else colMean (selectRows X idx) j

/-- X_train_std, dataset.py lines 56 and 58: population standard deviation
over the train rows plus normalization_eps, overwritten to 1 on one-hot
cancer-type columns. -/
noncomputable def trainStd (X : List (List ℚ)) (idx : List ℕ)
    (oneHot : List ℕ) (eps : ℝ) (j : ℕ) : ℝ :=
  if j ∈ oneHot then 1
  else Real.sqrt ((colVar (selectRows X idx) j : ℚ)) + eps

/-- Train features of the worked example: [[1,2],[3,4],[5,6]]. -/
def exampleX : List (List ℚ) := [[1, 2], [3, 4], [5, 6]]

/-- C1: normalization statistics come from the train rows alone — any dataset
agreeing with X on the rows named by the train indices yields identical
statistics; on a non-one-hot column the mean is the arithmetic column mean of
the train rows and the std is the population standard deviation plus eps; a
one-hot column is overwritten to mean 0 and std 1; and on the example train
partition [[1,2],[3,4],[5,6]] with no one-hot columns the means are [3,4] and
the pre-eps stds are [sqrt(8/3), sqrt(8/3)]. -/
theorem train_only_normalization_stats (X X' : List (List ℚ))
    (idx oneHot : List ℕ) (eps : ℝ) (j : ℕ)
    (hagree : ∀ i ∈ idx, rowAt X' i = rowAt X i) :
    (trainMean X' idx oneHot j = trainMean X idx oneHot j ∧
      trainStd X' idx oneHot eps j = trainStd X idx oneHot eps j) ∧
    (j ∉ oneHot →
      trainMean X idx oneHot j = colMean (selectRows X idx) j ∧
      trainStd X idx oneHot eps j =
        Real.sqrt ((colVar (selectRows X idx) j : ℚ)) + eps) ∧
    (j ∈ oneHot →
      trainMean X idx oneHot j = 0 ∧ trainStd X idx oneHot eps j = 1) ∧
    (trainMean exampleX [0, 1, 2] [] 0 = 3 ∧
      trainMean exampleX [0, 1, 2] [] 1 = 4 ∧
      trainStd exampleX [0, 1, 2] [] eps 0 = Real.sqrt (8 / 3) + eps ∧
      trainStd exampleX [0, 1, 2] [] eps 1 = Real.sqrt (8 / 3) + eps) := by
  have hsel : selectRows X' idx = selectRows X idx :=
    List.map_congr_left hagree
  have hvar0 : colVar (selectRows exampleX [0, 1, 2]) 0 = 8 / 3 := by
    norm_num [colVar, colMean, selectRows, exampleX, rowAt, entryAt]
  have hvar1 : colVar (selectRows exampleX [0, 1, 2]) 1 = 8 / 3 := by
    norm_num [colVar, colMean, selectRows, exampleX, rowAt, entryAt]
  have hcast : ∀ q : ℚ, q = 8 / 3 → ((q : ℚ) : ℝ) = (8 : ℝ) / 3 := by
    intro q hq
    rw [hq]
    push_cast
    ring
  refine ⟨⟨?_, ?_⟩, ?_, ?_, ?_, ?_, ?_, ?_⟩
  · unfold trainMean
    rw [hsel]
  · unfold trainStd
    rw [hsel]
  · intro hj
    unfold trainMean trainStd
    simp [hj]
  · intro hj
    unfold trainMean trainStd
    simp [hj]
  · norm_num [trainMean, colMean, selectRows, exampleX, rowAt, entryAt]
  · norm_num [trainMean, colMean, selectRows, exampleX, rowAt, entryAt]
  · unfold trainStd
    simp only [List.not_mem_nil, if_false]
    rw [hcast _ hvar0]
  · unfold trainStd
    simp only [List.not_mem_nil, if_false]
    rw [hcast _ hvar1]

/-- Witness: the statistics theorem applied to the worked example itself,
yielding the concrete mean of the first column. -/
theorem train_only_normalization_stats_witness :
    trainMean exampleX [0, 1, 2] [] 0 = 3 :=
  (train_only_normalization_stats exampleX exampleX [0, 1, 2] [] 0 0
    (fun _ _ => rfl)).2.2.2.1

/-- Split size int(n * q) of dataset.py lines 45-46 (the product is
nonnegative for a ratio, so Python int truncation is the floor). -/
def splitCount (n : ℕ) (q : ℚ) : ℕ := Nat.floor ((n : ℚ) * q)

/-- train_idx = all_indices[:train_size], dataset.py line 48. -/
def trainIdx (perm : List ℕ) (tr : ℚ) : List ℕ :=
  perm.take (splitCount perm.length tr)

/-- val_idx = all_indices[train_size:train_size+val_size], line 49. -/
def valIdx (perm : List ℕ) (tr va : ℚ) : List ℕ :=
  (perm.drop (splitCount perm.length tr)).take (splitCount perm.length va)

/-- test_idx = all_indices[train_size+val_size:], line 50. -/
def testIdx (perm : List ℕ) (tr va : ℚ) : List ℕ :=
  perm.drop (splitCount perm.length tr + splitCount perm.length va)

/-- C2: for any seeded permutation of [0..n) and nonnegative ratios summing
to 1, the three splits are pairwise disjoint, their concatenation is the
permutation itself (so each split keeps the permuted order and the union is
exactly [0..n)), train has floor(n*tr) elements, val the next floor(n*va),
and test the remaining n - floor(n*tr) - floor(n*va). -/
theorem partition_disjoint_exhaustive (n : ℕ) (perm : List ℕ) (tr va te : ℚ)
    (hperm : perm.Perm (List.range n))
    (htr : 0 ≤ tr) (hva : 0 ≤ va) (hte : 0 ≤ te) (hsum : tr + va + te = 1) :
    (trainIdx perm tr).Disjoint (valIdx perm tr va) ∧
      (trainIdx perm tr).Disjoint (testIdx perm tr va) ∧
      (valIdx perm tr va).Disjoint (testIdx perm tr va) ∧
      trainIdx perm tr ++ valIdx perm tr va ++ testIdx perm tr va = perm ∧
      (trainIdx perm tr ++ valIdx perm tr va ++ testIdx perm tr va).Perm
        (List.range n) ∧
      (trainIdx perm tr).length = splitCount n tr ∧
      (valIdx perm tr va).length = splitCount n va ∧
      (testIdx perm tr va).length = n - (splitCount n tr + splitCount n va) := by
  have hlen : perm.length = n := by
    simpa using hperm.length_eq
  have hnd : perm.Nodup := hperm.nodup_iff.2 (List.nodup_range n)
  set t := splitCount n tr with ht_def
  set v := splitCount n va with hv_def
  have htq : (t : ℚ) ≤ (n : ℚ) * tr :=
    Nat.floor_le (mul_nonneg (Nat.cast_nonneg n) htr)
  have hvq : (v : ℚ) ≤ (n : ℚ) * va :=
    Nat.floor_le (mul_nonneg (Nat.cast_nonneg n) hva)
  have htv : t + v ≤ n := by
    have h1 : ((t + v : ℕ) : ℚ) ≤ (n : ℚ) * (tr + va) := by
      push_cast
      calc (t : ℚ) + v ≤ (n : ℚ) * tr + (n : ℚ) * va := add_le_add htq hvq
        _ = (n : ℚ) * (tr + va) := by ring
    have h2 : (n : ℚ) * (tr + va) ≤ (n : ℚ) := by
      have hle : tr + va ≤ 1 := by linarith
      calc (n : ℚ) * (tr + va) ≤ (n : ℚ) * 1 :=
          mul_le_mul_of_nonneg_left hle (Nat.cast_nonneg n)
        _ = (n : ℚ) := mul_one _
    exact_mod_cast h1.trans h2
  have ht_le : t ≤ n := le_trans (Nat.le_add_right t v) htv
  have hslen : splitCount perm.length tr = t := by rw [hlen]
  have hslenv : splitCount perm.length va = v := by rw [hlen]
  have htrain : trainIdx perm tr = perm.take t := by
    rw [trainIdx, hslen]
  have hval : valIdx perm tr va = (perm.drop t).take v := by
    rw [valIdx, hslen, hslenv]
  have htest : testIdx perm tr va = (perm.drop t).drop v := by
    rw [testIdx, hslen, hslenv, List.drop_drop, Nat.add_comm]
  have hdnd : (perm.drop t).Nodup := hnd.sublist (List.drop_sublist t perm)
  refine ⟨?_, ?_, ?_, ?_, ?_, ?_, ?_, ?_⟩
  · rw [htrain, hval]
    exact List.disjoint_of_subset_right (List.take_subset _ _)
      (List.disjoint_take_drop hnd le_rfl)
  · rw [htrain, htest]
    exact List.disjoint_of_subset_right (List.drop_subset _ _)
      (List.disjoint_take_drop hnd le_rfl)
  · rw [hval, htest]
    exact List.disjoint_take_drop hdnd le_rfl
  · rw [htrain, hval, htest, List.append_assoc, List.take_append_drop,
      List.take_append_drop]
  · rw [htrain, hval, htest, List.append_assoc, List.take_append_drop,
      List.take_append_drop]
    exact hperm
  · rw [htrain, List.length_take, hlen]
    exact Nat.min_eq_left ht_le
  · rw [hval, List.length_take, List.length_drop, hlen]
    exact Nat.min_eq_left (Nat.le_sub_of_add_le (Nat.add_comm v t ▸ htv))
  · rw [htest, List.length_drop, List.length_drop, hlen, Nat.sub_sub]

/-- Witness: the partition theorem at n = 5 with the identity permutation
and ratios 3/5, 1/5, 1/5: the three splits concatenate back to [0..5). -/
theorem partition_disjoint_exhaustive_witness :
    trainIdx (List.range 5) (3 / 5) ++ valIdx (List.range 5) (3 / 5) (1 / 5)
      ++ testIdx (List.range 5) (3 / 5) (1 / 5) = List.range 5 :=
  (partition_disjoint_exhaustive 5 (List.range 5) (3 / 5) (1 / 5) (1 / 5)
    (List.Perm.refl _) (by norm_num) (by norm_num) (by norm_num)
    (by norm_num)).2.2.2.1

/-- One tabular source: its full column list (including sample_id) and its
rows, keyed by sample id. -/
structure SrcTable where
  cols : List String
  rows : List (String × List ℚ)
deriving DecidableEq

/-- The input names dataset.py line 81 subjects to the column-alignment
assertion. -/
def cnaFamilyNames : List String := ["cna", "cna_thresholded"]

/-- pd.merge(left, right, on sample_id, how inner): keep left order, pair
each left row with the values of the matching right row. -/
def innerJoin (a b : List (String × List ℚ)) : List (String × List ℚ) :=
  a.filterMap (fun p => (b.lookup p.1).map (fun vb => (p.1, p.2 ++ vb)))

/-- The input-loading loop of dataset.py lines 79-93: for each named source,
run the copy-number column assertion, then accumulate by inner join. -/
def mergeInputsAux (outCols : List String)
    (acc : Option (List (String × List ℚ))) :
    List (String × SrcTable) → Except String (Option (List (String × List ℚ)))
  | [] => Except.ok acc
  | (nm, t) :: rest =>
    if cnaFamilyNames.contains nm && !(decide (t.cols = outCols)) then
      Except.error ("Columns of " ++ nm ++
        " dataframe are not the same with columns of output dataframe.")
    else
      mergeInputsAux outCols
        (some (match acc with
          | none => t.rows
          | some r => innerJoin r t.rows)) rest

/-- Dataset assembly of _process_dataset for the cancer_type = all path:
load and merge the inputs (with the copy-number assertion), merge the
one-hot cancer-type table, assert output and mask columns agree, then inner
join with output, mask and cancer-type rows.  All failures happen before the
merged rows (from which X, y and the mask are sliced) are produced. -/
def assembleRows (inputs : List (String × SrcTable))
    (outputT maskT oneHotT ctT : SrcTable) :
    Except String (List (String × List ℚ)) :=
  match mergeInputsAux outputT.cols none inputs with
  | Except.error e => Except.error e
  | Except.ok none => Except.error "no input sources"
  | Except.ok (some inputRows) =>
    let withOneHot := innerJoin inputRows oneHotT.rows
    if !(decide (outputT.cols = maskT.cols)) then
      Except.error
        "Columns of output dataframe are not the same with columns of mask dataframe."
    else
      Except.ok (innerJoin (innerJoin (innerJoin withOneHot outputT.rows)
        maskT.rows) ctT.rows)

/-- Success test on an assembly result. -/
def isOkRows (e : Except String (List (String × List ℚ))) : Bool :=
  match e with
  | Except.ok _ => true
  | Except.error _ => false

/-- Input table whose gene column differs from that of the output table. -/
def tInMis : SrcTable := ⟨["sample_id", "g1"], [("s1", [1])]⟩

/-- Output table with gene column g2. -/
def tOutMis : SrcTable := ⟨["sample_id", "g2"], [("s1", [10])]⟩

/-- Mask table sharing the columns of the output table. -/
def tMaskMis : SrcTable := ⟨["sample_id", "g2"], [("s1", [1])]⟩

/-- One-hot cancer-type table for the concrete scenarios. -/
def tOneHotEx : SrcTable := ⟨["sample_id", "cancer_type_a"], [("s1", [1])]⟩

/-- Cancer-type label table for the concrete scenarios. -/
def tCtEx : SrcTable := ⟨["sample_id", "cancer_type"], [("s1", [0])]⟩

/-- C8: the copy-number column-alignment assertion of dataset.py line 81 only
fires for the names cna and cna_thresholded, which no dataset variant ever
passes; with the actual source names of the program, thresholded_cna and
unthresholded_cna, assembly succeeds even though the input columns differ
from the output columns, while the same tables under the name cna are
rejected (and the output/mask check does fire). -/
theorem cna_column_check_never_fires :
    tInMis.cols ≠ tOutMis.cols ∧
      isOkRows (assembleRows [("thresholded_cna", tInMis)] tOutMis tMaskMis
        tOneHotEx tCtEx) = true ∧
      isOkRows (assembleRows [("unthresholded_cna", tInMis)] tOutMis tMaskMis
        tOneHotEx tCtEx) = true ∧
      isOkRows (assembleRows [("cna", tInMis)] tOutMis tMaskMis
        tOneHotEx tCtEx) = false ∧
      cnaFamilyNames.contains "thresholded_cna" = false ∧
      cnaFamilyNames.contains "unthresholded_cna" = false ∧
      isOkRows (assembleRows [("rppa", tInMis)] tOutMis
        ⟨["sample_id", "g3"], [("s1", [1])]⟩ tOneHotEx tCtEx) = false := by
  refine ⟨?_, ?_, ?_, ?_, ?_, ?_, ?_⟩ <;> decide

/-- Sample ids of a row set. -/
def rowIds (r : List (String × List ℚ)) : List String := r.map Prod.fst

/-- Input table whose single sample id s1 appears in no output row. -/
def tInDisj : SrcTable := ⟨["sample_id", "g1"], [("s1", [1])]⟩

/-- Output table holding only sample id s2. -/
def tOutDisj : SrcTable := ⟨["sample_id", "g1"], [("s2", [5])]⟩

/-- Mask table with the columns of the output table and sample id s2. -/
def tMaskDisj : SrcTable := ⟨["sample_id", "g1"], [("s2", [1])]⟩

/-- Cancer-type table covering both sample ids. -/
def tCtDisj : SrcTable := ⟨["sample_id", "cancer_type"], [("s1", [0]), ("s2", [1])]⟩

/-- C9 counterexample: with sources whose sample-id sets are disjoint, the
assembly of _process_dataset returns successfully with zero rows — no
DataIntegrityError (nor any other error) is raised. -/
theorem empty_join_returns_ok_zero_rows :
    assembleRows [("rppa", tInDisj)] tOutDisj tMaskDisj tOneHotEx tCtDisj =
      Except.ok [] := by
  rfl

/-- Joining rows whose ids never occur in the right side gives no rows. -/
theorem innerJoin_eq_nil_of_disjoint (a b : List (String × List ℚ))
    (h : ∀ s ∈ rowIds a, b.lookup s = none) : innerJoin a b = [] := by
  induction a with
  | nil => rfl
  | cons p rest ih =>
    have hp : b.lookup p.1 = none := h p.1 (by simp [rowIds])
    have hrest : ∀ s ∈ rowIds rest, b.lookup s = none := fun s hs =>
      h s (by simp [rowIds] at hs ⊢; exact Or.inr hs)
    simp [innerJoin, hp]
    simpa [innerJoin] using ih hrest

/-- C9 amended: when the required sources share no sample id, dataset
assembly does not raise; it silently returns a zero-row Dataset.  Stated for
a single input source whose name escapes the copy-number assertion, with
matching output/mask columns, and whose one-hot-merged input rows share no
sample id with the output table. -/
theorem empty_join_silently_zero_rows (nm : String) (tIn outputT maskT oneHotT
    ctT : SrcTable) (hnm : cnaFamilyNames.contains nm = false)
    (hmask : outputT.cols = maskT.cols)
    (hdisj : ∀ s ∈ rowIds (innerJoin tIn.rows oneHotT.rows),
      outputT.rows.lookup s = none) :
    assembleRows [(nm, tIn)] outputT maskT oneHotT ctT = Except.ok [] := by
  have hjoin : innerJoin (innerJoin tIn.rows oneHotT.rows) outputT.rows = [] :=
    innerJoin_eq_nil_of_disjoint _ _ hdisj
  unfold assembleRows mergeInputsAux
  rw [hnm]
  simp only [Bool.false_and, if_neg (Bool.false_ne_true)]
  unfold mergeInputsAux
  simp only [hmask, decide_eq_true_eq, Bool.not_true, if_neg]
  rw [hjoin]
  rfl

/-- Witness: the amended empty-join theorem at the concrete disjoint
sources. -/
theorem empty_join_silently_zero_rows_witness :
    assembleRows [("tumor_purity", tInDisj)] tOutDisj tMaskDisj tOneHotEx
      tCtDisj = Except.ok [] :=
  empty_join_silently_zero_rows "tumor_purity" tInDisj tOutDisj tMaskDisj
    tOneHotEx tCtDisj (by decide) (by decide) (by decide)

/-- Sum-reduction squared-error loss, the eval loss with reduction sum. -/
def sqErrSum (yhat y : List ℚ) : ℚ :=
  ((yhat.zip y).map (fun p => (p.1 - p.2) ^ 2)).sum

/-- Normalization toggles of the configuration. -/
structure EvalCfg where
  normalizeInput : Bool
  normalizeOutput : Bool

/-- Train-partition statistics carried on the dataset object. -/
structure TrainStats where
  xMean : List ℚ
  xStd : List ℚ
  yMean : List ℚ
  yStd : List ℚ

/-- Prediction pipeline of validate.py lines 18-30: normalize the input if
configured, run the model, invert the output normalization if configured. -/
def validateRowPred (cfg : EvalCfg) (model : List ℚ → List ℚ)
    (st : TrainStats) (x : List ℚ) : List ℚ :=
  let x' := if cfg.normalizeInput then applyRow x st.xMean st.xStd else x
  let yh := model x'
  if cfg.normalizeOutput then invertRow yh st.yMean st.yStd else yh

/-- Per-epoch validation loss, validate.py lines 14-38: summed loss divided
by the total element count. -/
def validateLoss (cfg : EvalCfg) (model : List ℚ → List ℚ) (st : TrainStats)
    (batches : List (List ℚ × List ℚ)) : ℚ :=
  (batches.map (fun b => sqErrSum (validateRowPred cfg model st b.1) b.2)).sum
    / (batches.map (fun b => (b.2.length : ℚ))).sum

/-- Prediction pipeline of test.py line 50: yhat = model(X), with no input
normalization and no output inversion. -/
def testRowPred (model : List ℚ → List ℚ) (x : List ℚ) : List ℚ := model x

/-- Reported loss of save_results_split, test.py lines 44-62: summed loss of
the raw predictions divided by the total element count. -/
def testLoss (model : List ℚ → List ℚ)
    (batches : List (List ℚ × List ℚ)) : ℚ :=
  (batches.map (fun b => sqErrSum (testRowPred model b.1) b.2)).sum
    / (batches.map (fun b => (b.2.length : ℚ))).sum

/-- Constant model used for the failing input: raw output 0. -/
def modelZero : List ℚ → List ℚ := fun _ => [0]

/-- Configuration with output normalization enabled. -/
def cfgNormOut : EvalCfg := ⟨false, true⟩

/-- Statistics with y_train_mean = [1] and y_train_std = [1]. -/
def statsOne : TrainStats := ⟨[0], [1], [1], [1]⟩

/-- Single evaluation batch: X = [0], ground truth y = [2]. -/
def batchOne : List (List ℚ × List ℚ) := [([0], [2])]

/-- C4 divergence: with output normalization enabled, the per-epoch
validation loss of validate.py is computed on the inverted output (loss 1 on
the failing input), but save_results_split in test.py computes its loss and
stores its predictions from the raw model output without applying invert
(loss 4 on the same input), so the reported evaluation metrics are not in
the original target scale. -/
theorem test_split_skips_invert :
    validateLoss cfgNormOut modelZero statsOne batchOne = 1 ∧
      testLoss modelZero batchOne = 4 ∧
      testRowPred modelZero [0] = [0] ∧
      invertRow (modelZero [0]) statsOne.yMean statsOne.yStd = [1] ∧
      (1 : ℚ) ≠ 4 := by
  refine ⟨?_, ?_, ?_, ?_, ?_⟩
  · norm_num [validateLoss, validateRowPred, cfgNormOut, modelZero, statsOne,
      batchOne, invertRow, invertNorm, zip3With, sqErrSum]
  · norm_num [testLoss, testRowPred, modelZero, batchOne, sqErrSum]
  · rfl
  · norm_num [invertRow, invertNorm, zip3With, modelZero, statsOne]
  · norm_num

/-- Arithmetic mean of a value list. -/
def listMean (x : List ℚ) : ℚ := x.sum / x.length

/-- Sum of squared deviations from the mean; it vanishes exactly on constant
data, the degenerate case for the correlation denominator. -/
def sqDevSum (x : List ℚ) : ℚ :=
  (x.map (fun a => (a - listMean x) ^ 2)).sum

/-- mean_squared_error over two flattened value lists, test.py line 17. -/
def mseVals (gt pred : List ℚ) : ℚ :=
  (((gt.zip pred).map (fun p => (p.1 - p.2) ^ 2)).sum) / gt.length

/-- Result of pearsonr on two flattened value lists, test.py line 18: scipy
raises a ValueError when there are fewer than two points; with at least two
points it returns NaN when either side has zero variance and a plain real
coefficient otherwise (the Bool records whether the result is NaN). -/
def pearsonrRes (x y : List ℚ) : Except String Bool :=
  if x.length < 2 then Except.error "ValueError"
  else if sqDevSum x = 0 then Except.ok true
  else if sqDevSum y = 0 then Except.ok true
  else Except.ok false

/-- Row selection by sample id followed by ravel, test.py lines 23-27: the
rows of the group are filtered with isin and flattened to one value list. -/
def groupVals (table : List (String × List ℚ)) (ids : List String) :
    List ℚ :=
  ((table.filter (fun p => ids.contains p.1)).map Prod.snd).flatten

/-- One row of the per-group metrics table, test.py lines 29-31: the group
label, its MSE over the flattened values, and whether its Pearson
correlation came out NaN.  A pearsonr ValueError propagates: no row is
produced for that group. -/
def metricsRowE (gt pred : List (String × List ℚ)) (ct : String)
    (ids : List String) : Except String (String × ℚ × Bool) :=
  match pearsonrRes (groupVals gt ids) (groupVals pred ids) with
  | Except.error e => Except.error e
  | Except.ok isNan =>
    Except.ok (ct, mseVals (groupVals gt ids) (groupVals pred ids), isNan)

/-- The metrics table of test.py lines 88-93, built one group at a time in
loop order; an exception raised for any group aborts the whole reporter
before the table is written. -/
def metricsTableE (gt pred : List (String × List ℚ)) :
    List (String × List String) → Except String (List (String × ℚ × Bool))
  | [] => Except.ok []
  | g :: rest =>
    match metricsRowE gt pred g.1 g.2 with
    | Except.error e => Except.error e
    | Except.ok row =>
      match metricsTableE gt pred rest with
      | Except.error e => Except.error e
      | Except.ok rows => Except.ok (row :: rows)

/-- Ground truths of the reporter scenario. -/
def gtTable : List (String × List ℚ) := [("A", [1, 2]), ("B", [3, 4])]

/-- Predictions of the reporter scenario. -/
def predTable : List (String × List ℚ) := [("A", [1, 2]), ("B", [3, 5])]

/-- C10 counterexample: in the scenario the all group MSE is 0.25 as claimed,
but the single-sample group A does not yield an undefined/NaN Pearson
correlation: its flattened values are the two per-gene values [1,2] on both
sides, so pearsonr returns a plain defined coefficient (here 1) — neither
NaN nor an error. -/
theorem single_sample_group_corr_defined :
    mseVals (groupVals gtTable ["A", "B"]) (groupVals predTable ["A", "B"]) =
      1 / 4 ∧
      groupVals gtTable ["A"] = [1, 2] ∧
      groupVals predTable ["A"] = [1, 2] ∧
      pearsonrRes (groupVals gtTable ["A"]) (groupVals predTable ["A"]) =
        Except.ok false := by
  have hgAll : groupVals gtTable ["A", "B"] = [1, 2, 3, 4] := rfl
  have hpAll : groupVals predTable ["A", "B"] = [1, 2, 3, 5] := rfl
  have hgA : groupVals gtTable ["A"] = [1, 2] := rfl
  have hpA : groupVals predTable ["A"] = [1, 2] := rfl
  have hdev : sqDevSum [(1 : ℚ), 2] = 1 / 2 := by
    norm_num [sqDevSum, listMean]
  refine ⟨?_, hgA, hpA, ?_⟩
  · rw [hgAll, hpAll]
    norm_num [mseVals, List.zip, List.zipWith]
  · rw [hgA, hpA]
    unfold pearsonrRes
    rw [hdev]
    norm_num

/-- C10 amended: the all group MSE is 0.25 over the flattened sample-by-gene
values, and a single-sample group does not yield an undefined correlation:
every group of the scenario flattens to at least two non-constant per-gene
values, so each is emitted as a row with a defined coefficient; a NaN
correlation arises only from zero variance among at least two flattened
values and is then emitted as-is in its row, while a group with fewer than
two flattened values makes pearsonr raise a ValueError that propagates and
aborts the reporter before the table is written. -/
theorem reporter_metrics_amended :
    metricsTableE gtTable predTable
        [("A", ["A"]), ("B", ["B"]), ("all", ["A", "B"])] =
      Except.ok [("A", 0, false), ("B", 1 / 2, false), ("all", 1 / 4, false)] ∧
      metricsRowE [("C", [7, 7])] [("C", [8, 9])] "C" ["C"] =
        Except.ok ("C", 5 / 2, true) ∧
      metricsRowE [("D", [7])] [("D", [8])] "D" ["D"] =
        Except.error "ValueError" := by
  have hgA : groupVals gtTable ["A"] = [1, 2] := rfl
  have hpA : groupVals predTable ["A"] = [1, 2] := rfl
  have hgB : groupVals gtTable ["B"] = [3, 4] := rfl
  have hpB : groupVals predTable ["B"] = [3, 5] := rfl
  have hgAll : groupVals gtTable ["A", "B"] = [1, 2, 3, 4] := rfl
  have hpAll : groupVals predTable ["A", "B"] = [1, 2, 3, 5] := rfl
  have hd12 : sqDevSum [(1 : ℚ), 2] = 1 / 2 := by norm_num [sqDevSum, listMean]
  have hd34 : sqDevSum [(3 : ℚ), 4] = 1 / 2 := by norm_num [sqDevSum, listMean]
  have hd35 : sqDevSum [(3 : ℚ), 5] = 2 := by norm_num [sqDevSum, listMean]
  have hdAll : sqDevSum [(1 : ℚ), 2, 3, 4] = 5 := by
    norm_num [sqDevSum, listMean]
  have hdAllp : sqDevSum [(1 : ℚ), 2, 3, 5] = 35 / 4 := by
    norm_num [sqDevSum, listMean]
  have hmA : mseVals [(1 : ℚ), 2] [(1 : ℚ), 2] = 0 := by
    norm_num [mseVals, List.zip, List.zipWith]
  have hmB : mseVals [(3 : ℚ), 4] [(3 : ℚ), 5] = 1 / 2 := by
    norm_num [mseVals, List.zip, List.zipWith]
  have hmAll : mseVals [(1 : ℚ), 2, 3, 4] [(1 : ℚ), 2, 3, 5] = 1 / 4 := by
    norm_num [mseVals, List.zip, List.zipWith]
  have hprA : pearsonrRes [(1 : ℚ), 2] [(1 : ℚ), 2] = Except.ok false := by
    unfold pearsonrRes
    rw [hd12]
    norm_num
  have hprB : pearsonrRes [(3 : ℚ), 4] [(3 : ℚ), 5] = Except.ok false := by
    unfold pearsonrRes
    rw [hd34, hd35]
    norm_num
  have hprAll : pearsonrRes [(1 : ℚ), 2, 3, 4] [(1 : ℚ), 2, 3, 5] =
      Except.ok false := by
    unfold pearsonrRes
    rw [hdAll, hdAllp]
    norm_num
  have hrA : metricsRowE gtTable predTable "A" ["A"] =
      Except.ok ("A", 0, false) := by
    simp only [metricsRowE, hgA, hpA, hprA, hmA]
  have hrB : metricsRowE gtTable predTable "B" ["B"] =
      Except.ok ("B", 1 / 2, false) := by
    simp only [metricsRowE, hgB, hpB, hprB, hmB]
  have hrAll : metricsRowE gtTable predTable "all" ["A", "B"] =
      Except.ok ("all", 1 / 4, false) := by
    simp only [metricsRowE, hgAll, hpAll, hprAll, hmAll]
  refine ⟨?_, ?_, ?_⟩
  · simp only [metricsTableE, hrA, hrB, hrAll]
  · have hgC : groupVals [("C", [(7 : ℚ), 7])] ["C"] = [7, 7] := rfl
    have hpC : groupVals [("C", [(8 : ℚ), 9])] ["C"] = [8, 9] := rfl
    have hd77 : sqDevSum [(7 : ℚ), 7] = 0 := by norm_num [sqDevSum, listMean]
    have hmC : mseVals [(7 : ℚ), 7] [(8 : ℚ), 9] = 5 / 2 := by
      norm_num [mseVals, List.zip, List.zipWith]
    have hprC : pearsonrRes [(7 : ℚ), 7] [(8 : ℚ), 9] = Except.ok true := by
      unfold pearsonrRes
      rw [hd77]
      norm_num
    simp only [metricsRowE, hgC, hpC, hprC, hmC]
  · have hgD : groupVals [("D", [(7 : ℚ)])] ["D"] = [7] := rfl
    have hpD : groupVals [("D", [(8 : ℚ)])] ["D"] = [8] := rfl
    have hprD : pearsonrRes [(7 : ℚ)] [(8 : ℚ)] = Except.error "ValueError" :=
      rfl
    simp only [metricsRowE, hgD, hpD, hprD]

/-- Witness: the first-epoch failure theorem at the loss name mse. -/
theorem main_first_epoch_fails_witness :
    mainFirstEpochValLoss "mse" 3 = Except.error "TypeError" :=
  (main_first_epoch_fails "mse" 3).1

/-- Witness: a mapping with all three keys and values summing to 1 reaches
the data-loading stage. -/
theorem split_map_check_iff_witness :
    datasetInitStage [("train", 1), ("val", 0), ("test", 0)] =
      Except.ok "data loaded" := by
  refine (split_map_check_iff [("train", 1), ("val", 0), ("test", 0)]).2
    ⟨rfl, rfl, rfl, ?_⟩
  have h1 : getVal [("train", (1 : ℚ)), ("val", 0), ("test", 0)] "train" = 1 :=
    rfl
  have h2 : getVal [("train", (1 : ℚ)), ("val", 0), ("test", 0)] "val" = 0 :=
    rfl
  have h3 : getVal [("train", (1 : ℚ)), ("val", 0), ("test", 0)] "test" = 0 :=
    rfl
  rw [h1, h2, h3]
  norm_num
